import Mathlib

/-!
Shallow embedding of `batch_convert_mjlog.py`, a batch converter that gzips
XML game logs, invokes an external `mjai convert` subprocess per file,
optionally invokes an external validator subprocess, and aggregates per-file
results.

External effects are made explicit:
* the filesystem is an association list from path to file size (`FS`);
* each subprocess invocation is an oracle value describing the observable
  outcome of the external process (exit code, stderr, whether it wrote its
  destination file, whether it raised / timed out);
* Python string and list operations (`in`, slicing, `split`, `sorted`,
  truthiness of `limit`) are embedded by executable Lean functions.
-/

/-! ## Python string primitives (structural, kernel-executable) -/

/-- Boolean test that the first char list is an initial segment of the second. -/
def leadsWith : List Char → List Char → Bool
  | [], _ => true
  | _ :: _, [] => false
  | a :: as, b :: bs => a == b && leadsWith as bs

/-- Boolean substring test on char lists: `containsSub hay needle` is the
Python expression `needle in hay`. -/
def containsSub : List Char → List Char → Bool
  | [], needle => needle.isEmpty
  | c :: t, needle => leadsWith needle (c :: t) || containsSub t needle

/-- Python `needle in hay` on strings. -/
def pyContains (hay needle : String) : Bool :=
  containsSub hay.toList needle.toList

/-- Python slicing `s[:n]` for a nonnegative `n`. -/
def strTake (s : String) (n : Nat) : String :=
  (s.toList.take n).asString

/-- Python `name.endswith(suf)`, used to embed the `*.xml` glob. -/
def strEndsWith (s suf : String) : Bool :=
  leadsWith suf.toList.reverse s.toList.reverse

/-- Split a char list on a separator character; always returns at least one
(possibly empty) piece, exactly like Python `str.split(sep)` on a
nonempty string. -/
def splitOnChar (sep : Char) : List Char → List (List Char)
  | [] => [[]]
  | c :: t =>
    let r := splitOnChar sep t
    if c == sep then [] :: r
    else
      match r with
      | [] => [[c]]
      | h :: t2 => (c :: h) :: t2

/-- The Python expression `s.split('\n') if s else []` from `validate_mjai`. -/
def pyLines (s : String) : List String :=
  if s == "" then [] else (splitOnChar '\n' s.toList).map List.asString

/-- Lexicographic comparison of char lists, the order Python uses to sort
path strings. -/
def charListLe : List Char → List Char → Bool
  | [], _ => true
  | _ :: _, [] => false
  | a :: as, b :: bs => if a == b then charListLe as bs else decide (a < b)

/-- Lexicographic `≤` on strings. -/
def strLe (a b : String) : Bool := charListLe a.toList b.toList

/-- Insert a string into a sorted list of strings. -/
def insertSorted (x : String) : List String → List String
  | [] => [x]
  | y :: ys => if strLe x y then x :: y :: ys else y :: insertSorted x ys

/-- Python `sorted` on a list of path strings (insertion sort; the order
itself is irrelevant to the claims, only that it is a permutation). -/
def sortStrings : List String → List String
  | [] => []
  | x :: xs => insertSorted x (sortStrings xs)

/-- Python list slicing `l[:n]` with an `int` bound: a nonnegative `n` keeps
the first `n` elements, a negative `n` drops the last `|n|`. -/
def pyTake {α : Type} (n : Int) (l : List α) : List α :=
  if 0 ≤ n then l.take n.toNat else l.take ((l.length : Int) + n).toNat

/-- `pathlib` `dir / name` with `/` separators. -/
def pathJoin (dir name : String) : String := dir ++ "/" ++ name

/-- The final component of a path, as used by `Path.name` / `Path.stem`. -/
def baseNameOf (p : String) : String :=
  (((splitOnChar '/' p.toList).map List.asString).getLastD p)

/-- `pathlib.PurePath.stem` of a file name: the name with its last suffix
removed, where a dot at position 0 or at the very end does not start a
suffix (CPython: `i = name.rfind('.'); name[:i] if 0 < i < len(name)-1`). -/
def stemOf (name : String) : String :=
  let cs := name.toList
  match cs.reverse.findIdx? (fun c => c == '.') with
  | none => name
  | some j =>
    let i := cs.length - 1 - j
    if 0 < i ∧ i < cs.length - 1 then (cs.take i).asString else name

/-! ## Filesystem model -/

/-- The filesystem: an association list mapping a path to the size of the
file stored there. -/
abbrev FS := List (String × Nat)

/-- `Path.unlink` / delete-if-present: remove every entry at path `p`. -/
def FS.unlink (fs : FS) (p : String) : FS := fs.filter (fun e => e.1 != p)

/-- Create or overwrite the file at path `p` with the given size. -/
def FS.insert (fs : FS) (p : String) (size : Nat) : FS := (p, size) :: fs.unlink p

/-- `Path.exists()`. -/
def FS.existsFile (fs : FS) (p : String) : Bool := fs.any (fun e => e.1 == p)

/-- `Path.stat().st_size`, with 0 as a don't-care default for a missing file
(the code only reads the size of a file it has just checked to exist). -/
def FS.size (fs : FS) (p : String) : Nat :=
  ((fs.find? (fun e => e.1 == p)).map Prod.snd).getD 0

/-! ## Subprocess oracles and result records -/

/-- Observable outcome of a completed `subprocess.run`. -/
structure ProcResult where
  returncode : Nat
  stdout : String
  stderr : String
deriving Repr, DecidableEq

/-- Outcome of the converter invocation in `convert_mjlog_to_mjai`: either
the process completed (with its exit data, and `wrote = some size` when it
created the destination file with that size), or launching/running it raised
an exception with the given message (`wrote` likewise records a partially
written destination file). -/
inductive RunOutcome where
  | completed (res : ProcResult) (wrote : Option Nat)
  | raised (msg : String) (wrote : Option Nat)
deriving Repr, DecidableEq

/-- Effect of the converter process on the filesystem: it writes the
destination file exactly when `wrote = some size`. -/
def writeDest (fs : FS) (outputPath : String) (wrote : Option Nat) : FS :=
  match wrote with
  | none => fs
  | some size => fs.insert outputPath size

/-- Outcome of the validator invocation in `validate_mjai`: completed with
exit data, killed by the timeout (`subprocess.TimeoutExpired`), or raised
some other exception. -/
inductive ValRun where
  | completed (res : ProcResult)
  | timedOut
  | raised (msg : String)
deriving Repr, DecidableEq

/-- Outcome of `gzip_xml_to_mjlog`'s I/O: success, an exception raised
before `gzip.open` created the output file (e.g. the source is unreadable),
or an exception raised after it was created (e.g. disk full while copying,
leaving a partial file behind). -/
inductive GzipOutcome where
  | ok
  | failBeforeCreate (msg : String)
  | failAfterCreate (msg : String)
deriving Repr, DecidableEq

/-- The per-file result dict built by `process_single_file`:
`{'file': ..., 'status': ..., 'error': ..., 'validation': ...}`. -/
structure JobResult where
  file : String
  status : String
  error : Option String
  validation : Option String
deriving Repr, DecidableEq

/-! ## The pipeline functions -/

/-- `check_bye_event`: read the XML file and test `'BYE' in content`;
any read exception (`content = none`) yields `False`. -/
def check_bye_event (content : Option String) : Bool :=
  match content with
  | none => false
  | some c => pyContains c "BYE"

/-- `gzip_xml_to_mjlog`: compress the XML file into
`temp_dir / (stem + ".mjlog")`. `Except.error msg` models the I/O exception
propagating to the caller; the returned `FS` records whether the (possibly
partial) output file was created before the failure. -/
def gzip_xml_to_mjlog (xmlName tempDir : String) (gz : GzipOutcome) (fs : FS) :
    Except String String × FS :=
  let mjlogPath := pathJoin tempDir (stemOf xmlName ++ ".mjlog")
  match gz with
  | .ok => (Except.ok mjlogPath, fs.insert mjlogPath 1)
  | .failBeforeCreate msg => (Except.error msg, fs)
  | .failAfterCreate msg => (Except.error msg, fs.insert mjlogPath 1)

/-- The converter's "unsupported input" marker searched for in stderr. -/
def unsupportedMarker : String := "Skipping unsupported file"

/-- `convert_mjlog_to_mjai`: run `mjai convert` on the compressed file and
classify the outcome. Returns `((success, message, output_path), fs')`. -/
def convert_mjlog_to_mjai (mjlogPath outputDir : String) (run : RunOutcome) (fs : FS) :
    (Bool × String × String) × FS :=
  let outputPath := pathJoin outputDir (stemOf (baseNameOf mjlogPath) ++ ".mjson")
  match run with
  | .completed res wrote =>
    let fs1 := writeDest fs outputPath wrote
    if res.returncode != 0 then
      ((if pyContains res.stderr unsupportedMarker then
          (false, "Unsupported format", outputPath)
        else
          (false, strTake res.stderr 200, outputPath)), fs1.unlink outputPath)
    else if !(fs1.existsFile outputPath) || fs1.size outputPath == 0 then
      ((false, "Conversion produced empty or no file", outputPath), fs1.unlink outputPath)
    else
      ((true, "Success", outputPath), fs1)
  | .raised msg wrote =>
    let fs1 := writeDest fs outputPath wrote
    ((false, msg, outputPath), fs1.unlink outputPath)

/-- `validate_mjai`: if the validator executable is absent, report a pass
without running anything; otherwise run it with `timeout=10` and classify
the outcome. `valRun` maps the timeout passed to `subprocess.run` to the
invocation's outcome. -/
def validate_mjai (mjsonPath : String) (validatorExists : Bool) (valRun : Nat → ValRun) :
    Bool × String :=
  if !validatorExists then
    (true, "Validator not found, skipping validation")
  else
    match valRun 10 with
    | .completed res =>
      if res.returncode == 0 then
        (true, "Validation passed")
      else
        let errors := pyLines res.stderr
        let firstError := (errors.find? (fun e => pyContains e "fails")).getD "Unknown error"
        (false, strTake firstError 100)
    | .timedOut => (false, "Validation timeout")
    | .raised msg => (false, msg)

/-- `process_single_file`: the per-file pipeline. `xmlContent` is what
`check_bye_event` reads (`none` = read exception); the oracles describe the
gzip step and the two subprocess invocations; `fs` is the filesystem on
entry. Returns the result dict and the filesystem on return. -/
def process_single_file (xmlName : String) (xmlContent : Option String)
    (tempDir outputDir : String) (validate : Bool)
    (gz : GzipOutcome) (convRun : RunOutcome)
    (validatorExists : Bool) (valRun : Nat → ValRun)
    (fs : FS) : JobResult × FS :=
  let result : JobResult :=
    { file := xmlName, status := "pending", error := none, validation := none }
  if check_bye_event xmlContent then
    ({ result with
        status := "skipped"
        error := some "Contains BYE event (player disconnection)" }, fs)
  else
    match gzip_xml_to_mjlog xmlName tempDir gz fs with
    | (Except.error msg, fs1) =>
      ({ result with status := "error", error := some msg }, fs1)
    | (Except.ok mjlogPath, fs1) =>
      match convert_mjlog_to_mjai mjlogPath outputDir convRun fs1 with
      | ((success, message, mjsonPath), fs2) =>
        if success then
          let result1 := { result with status := "converted" }
          let result2 :=
            if validate && fs2.existsFile mjsonPath then
              match validate_mjai mjsonPath validatorExists valRun with
              | (valid, validationMsg) =>
                { result1 with
                    validation :=
                      some (if valid then "passed" else "failed: " ++ validationMsg) }
            else result1
          (result2, fs2.unlink mjlogPath)
        else
          ({ result with status := "failed", error := some message }, fs2.unlink mjlogPath)

/-! ## The batch scheduler and reporter -/

/-- `input_dir.glob("*.xml")` membership test for one directory entry:
the name ends in `.xml`. (`pathlib.Path.glob` uses plain fnmatch-style
matching, so unlike the `glob` module it also matches hidden,
dot-prefixed names.) -/
def matchesXmlGlob (name : String) : Bool :=
  strEndsWith name ".xml"

/-- `sorted(input_dir.glob("*.xml"))`: the discovery phase of
`batch_convert` over the input directory's entry names. -/
def discoverXmlFiles (entries : List String) : List String :=
  sortStrings (entries.filter matchesXmlGlob)

/-- The `if limit: xml_files = xml_files[:limit]` step: `none` is Python
`None`; an `int` limit truncates exactly when it is truthy (nonzero). -/
def applyLimit (limit : Option Int) (l : List String) : List String :=
  match limit with
  | none => l
  | some n => if n == 0 then l else pyTake n l

/-- Externally visible effects of one `batch_convert` call. -/
structure BatchEffects where
  madeOutputDir : Bool
  results : List JobResult
  wroteResultsFile : Bool
deriving Repr, DecidableEq

/-- `batch_convert`: discover and sort the XML files; if none, print and
return (no output directory, no results file); otherwise truncate by
`limit`, run one job per file on the worker pool and collect results in
completion order, then write the results file. `process` is the per-file
job (`process_single_file` with its world fixed) and `sched` is the
completion order produced by `as_completed` — an arbitrary reordering of
the submitted jobs. -/
def batch_convert (entries : List String) (limit : Option Int)
    (process : String → JobResult) (sched : List String → List String) :
    BatchEffects :=
  let xmlFiles := discoverXmlFiles entries
  if xmlFiles.isEmpty then
    { madeOutputDir := false, results := [], wroteResultsFile := false }
  else
    let xmlFiles := applyLimit limit xmlFiles
    { madeOutputDir := true
      results := (sched xmlFiles).map process
      wroteResultsFile := true }

/-- The summary count `failed = sum(1 for r in results if r['status'] in
['failed', 'error'])`. -/
def failedCount (results : List JobResult) : Nat :=
  (results.map (fun r =>
    if r.status = "failed" ∨ r.status = "error" then 1 else 0)).sum

/-- The reporter's `errors = [r for r in results if r['status'] in
['failed', 'error']]`. -/
def failedErrorResults (results : List JobResult) : List JobResult :=
  results.filter (fun r => decide (r.status = "failed" ∨ r.status = "error"))

/-- The detailed error listing: printed (as `errors[:10]`) exactly when
`errors` is nonempty and has at most 10 entries, otherwise suppressed. -/
def errorListing (results : List JobResult) : Option (List JobResult) :=
  let errors := failedErrorResults results
  if errors.isEmpty then none
  else if errors.length ≤ 10 then some (errors.take 10)
  else none

/-! ## Helper lemmas -/

theorem existsFile_unlink_self (fs : FS) (p : String) :
    FS.existsFile (FS.unlink fs p) p = false := by
  simp [FS.existsFile, FS.unlink, List.any_eq_true, List.mem_filter]

theorem existsFile_unlink_of_absent (fs : FS) (p q : String)
    (h : FS.existsFile fs p = false) :
    FS.existsFile (FS.unlink fs q) p = false := by
  simp only [FS.existsFile, List.any_eq_false] at h ⊢
  intro e he
  exact h e (List.mem_of_mem_filter he)

theorem strTake_length_le (s : String) (n : Nat) : (strTake s n).length ≤ n := by
  show (List.asString (s.toList.take n)).length ≤ n
  have : (List.asString (s.toList.take n)).length = (s.toList.take n).length := rfl
  rw [this, List.length_take]
  exact Nat.min_le_left n s.toList.length

theorem applyLimit_nil (limit : Option Int) : applyLimit limit ([] : List String) = [] := by
  cases limit with
  | none => rfl
  | some n =>
    unfold applyLimit pyTake
    split
    · rfl
    · split <;> simp [List.take_nil]

theorem failedCount_eq_length (results : List JobResult) :
    failedCount results = (failedErrorResults results).length := by
  induction results with
  | nil => rfl
  | cons r t ih =>
    unfold failedCount failedErrorResults at ih ⊢
    by_cases h : r.status = "failed" ∨ r.status = "error" <;>
      simp [h, ih] <;> omega

/-! ## Claim theorems -/

/-- C1: for every InputFile discovered by the batch (after sorting and
optional limit truncation), exactly one JobResult is produced: the collected
result list is, up to completion order, exactly one `process` result per
discovered file, and its length equals the discovered-file count. -/
theorem batch_convert_one_result_per_input (entries : List String)
    (limit : Option Int) (process : String → JobResult)
    (sched : List String → List String)
    (hsched : ∀ l : List String, (sched l).Perm l) :
    (batch_convert entries limit process sched).results.Perm
      ((applyLimit limit (discoverXmlFiles entries)).map process) ∧
    (batch_convert entries limit process sched).results.length
      = (applyLimit limit (discoverXmlFiles entries)).length := by
  unfold batch_convert
  by_cases h : (discoverXmlFiles entries).isEmpty
  · have he : discoverXmlFiles entries = [] := List.isEmpty_iff.mp h
    simp [h, he, applyLimit_nil]
  · simp only [h, Bool.false_eq_true, if_false]
    refine ⟨(hsched _).map process, ?_⟩
    rw [List.length_map]
    exact (hsched _).length_eq

/-- C1 witness: three entries, one non-XML, limit 1, completion order
reversed: exactly one result for the one discovered-and-limited file. -/
theorem batch_convert_one_result_per_input_witness :
    (batch_convert ["b.xml", "a.xml", "c.txt"] (some 1)
      (fun n => ⟨n, "converted", none, none⟩) List.reverse).results.length = 1 := by
  rw [(batch_convert_one_result_per_input ["b.xml", "a.xml", "c.txt"] (some 1)
    (fun n => ⟨n, "converted", none, none⟩) List.reverse
    (fun l => l.reverse_perm)).2]
  decide

/-- C8: if no directory entry matches the `*.xml` glob, `batch_convert`
is a no-op: no output directory is created, no job runs, and no results
file is written. -/
theorem batch_convert_no_inputs_noop (entries : List String)
    (limit : Option Int) (process : String → JobResult)
    (sched : List String → List String)
    (hnone : ∀ n ∈ entries, matchesXmlGlob n = false) :
    batch_convert entries limit process sched
      = { madeOutputDir := false, results := [], wroteResultsFile := false } := by
  have hfil : entries.filter matchesXmlGlob = [] :=
    List.filter_eq_nil_iff.mpr (fun n hn => by simp [hnone n hn])
  unfold batch_convert discoverXmlFiles
  rw [hfil]
  rfl

/-- C8 witness: a directory with only non-XML entries yields the no-op
effects. -/
theorem batch_convert_no_inputs_noop_witness :
    batch_convert ["a.txt", "b.mjson"] none
      (fun n => ⟨n, "converted", none, none⟩) id
      = { madeOutputDir := false, results := [], wroteResultsFile := false } :=
  batch_convert_no_inputs_noop ["a.txt", "b.mjson"] none
    (fun n => ⟨n, "converted", none, none⟩) id (by decide)

/-- C9: with more than 10 failed/error results the reporter suppresses the
detailed error listing entirely (it is printed exactly when the error count
is between 1 and 10), while the summary's failed count still equals the true
number of failed/error results. -/
theorem reporter_suppresses_long_error_list (results : List JobResult)
    (hmany : 10 < (failedErrorResults results).length) :
    errorListing results = none ∧
    failedCount results = (failedErrorResults results).length ∧
    ∀ rs : List JobResult,
      (errorListing rs).isSome
        = (1 ≤ (failedErrorResults rs).length ∧ (failedErrorResults rs).length ≤ 10 : Bool) := by
  refine ⟨?_, failedCount_eq_length results, ?_⟩
  · unfold errorListing
    have h1 : (failedErrorResults results).isEmpty = false := by
      rcases h : failedErrorResults results with _ | ⟨a, t⟩
      · rw [h] at hmany; simp at hmany
      · rfl
    simp [h1, Nat.not_le.mpr hmany]
  · intro rs
    unfold errorListing
    by_cases he : (failedErrorResults rs).isEmpty
    · have hnil : failedErrorResults rs = [] := List.isEmpty_iff.mp he
      simp [he, hnil]
    · by_cases hl : (failedErrorResults rs).length ≤ 10
      · have h1 : 1 ≤ (failedErrorResults rs).length := by
          rcases h : failedErrorResults rs with _ | ⟨a, t⟩
          · rw [h] at he; simp at he
          · simp
        simp [he, hl, h1]
      · simp [he, hl]

/-- C9 witness: eleven failed results suppress the listing; the failed
count is still 11. -/
theorem reporter_suppresses_long_error_list_witness :
    errorListing (List.replicate 11 ⟨"f.xml", "failed", some "boom", none⟩) = none ∧
    failedCount (List.replicate 11 ⟨"f.xml", "failed", some "boom", none⟩) = 11 := by
  have h := reporter_suppresses_long_error_list
    (List.replicate 11 ⟨"f.xml", "failed", some "boom", none⟩) (by decide)
  exact ⟨h.1, by rw [h.2.1]; decide⟩

/-- C10: a `limit` of 0 is falsy, so no truncation happens at all: every
discovered file is processed, whereas a positive limit `n` keeps only the
first `n` sorted files. -/
theorem limit_zero_means_no_truncation (entries : List String) :
    (∀ l : List String, applyLimit (some 0) l = l) ∧
    (∀ (l : List String) (n : Int), 0 < n →
      applyLimit (some n) l = l.take n.toNat) ∧
    (∀ (process : String → JobResult) (sched : List String → List String),
      batch_convert entries (some 0) process sched
        = batch_convert entries none process sched) := by
  refine ⟨fun l => rfl, fun l n hn => ?_, fun process sched => ?_⟩
  · have h0 : ¬ ((n == 0) = true) := by simp; omega
    show (if (n == 0) = true then l else pyTake n l) = List.take n.toNat l
    rw [if_neg h0]
    unfold pyTake
    rw [if_pos (le_of_lt hn)]
  · unfold batch_convert
    by_cases h : (discoverXmlFiles entries).isEmpty <;> simp [h, applyLimit]

/-- C10 witness: with limit 0 the batch over two XML files behaves exactly
as with no limit (both results collected), while limit 1 keeps one file. -/
theorem limit_zero_means_no_truncation_witness :
    batch_convert ["a.xml", "b.xml"] (some 0)
        (fun n => ⟨n, "converted", none, none⟩) id
      = batch_convert ["a.xml", "b.xml"] none
        (fun n => ⟨n, "converted", none, none⟩) id ∧
    applyLimit (some 1) ["a.xml", "b.xml"] = ["a.xml"] := by
  refine ⟨(limit_zero_means_no_truncation ["a.xml", "b.xml"]).2.2 _ id, ?_⟩
  rw [(limit_zero_means_no_truncation []).2.1 ["a.xml", "b.xml"] 1 (by decide)]
  decide

/-- C5: on nonzero converter exit, `convert_mjlog_to_mjai` deletes any
partially written destination file and returns failure: with the exact
message `"Unsupported format"` when stderr contains the unsupported-input
marker, otherwise with stderr truncated to at most 200 characters; in both
cases the destination file does not exist afterwards. -/
theorem convert_nonzero_exit_cleanup (mjlogPath outputDir : String)
    (res : ProcResult) (wrote : Option Nat) (fs : FS) (outP : String)
    (hout : outP = pathJoin outputDir (stemOf (baseNameOf mjlogPath) ++ ".mjson"))
    (hrc : res.returncode ≠ 0) :
    (pyContains res.stderr unsupportedMarker = true →
      convert_mjlog_to_mjai mjlogPath outputDir (RunOutcome.completed res wrote) fs
        = ((false, "Unsupported format", outP),
            FS.unlink (writeDest fs outP wrote) outP)) ∧
    (pyContains res.stderr unsupportedMarker = false →
      convert_mjlog_to_mjai mjlogPath outputDir (RunOutcome.completed res wrote) fs
        = ((false, strTake res.stderr 200, outP),
            FS.unlink (writeDest fs outP wrote) outP)) ∧
    (strTake res.stderr 200).length ≤ 200 ∧
    FS.existsFile
      (convert_mjlog_to_mjai mjlogPath outputDir
        (RunOutcome.completed res wrote) fs).2 outP = false := by
  subst hout
  have hne : (res.returncode != 0) = true := by simpa using hrc
  refine ⟨fun hp => ?_, fun hp => ?_, strTake_length_le _ _, ?_⟩
  · unfold convert_mjlog_to_mjai
    simp [hne, hp]
  · unfold convert_mjlog_to_mjai
    simp [hne, hp]
  · unfold convert_mjlog_to_mjai
    simp [hne, existsFile_unlink_self]

/-- C5 witness: both classifications at concrete inputs, with a partial
destination file present that gets removed. -/
theorem convert_nonzero_exit_cleanup_witness :
    convert_mjlog_to_mjai "t/a.mjlog" "out"
        (RunOutcome.completed ⟨1, "", "err: Skipping unsupported file x"⟩ (some 3)) []
      = ((false, "Unsupported format", "out/a.mjson"), []) ∧
    convert_mjlog_to_mjai "t/a.mjlog" "out"
        (RunOutcome.completed ⟨2, "", "boom"⟩ none) []
      = ((false, "boom", "out/a.mjson"), []) := by
  constructor
  · have h := convert_nonzero_exit_cleanup "t/a.mjlog" "out"
      ⟨1, "", "err: Skipping unsupported file x"⟩ (some 3) [] "out/a.mjson"
      (by decide) (by decide)
    rw [h.1 (by decide)]
    decide
  · have h := convert_nonzero_exit_cleanup "t/a.mjlog" "out"
      ⟨2, "", "boom"⟩ none [] "out/a.mjson" (by decide) (by decide)
    rw [h.2.1 (by decide)]
    decide

/-- C4: converter exits zero but the destination file is missing or empty:
`convert_mjlog_to_mjai` fails with message "Conversion produced empty or no
file", the job's status is `failed` with a message containing "empty", and
the (empty) destination file does not exist afterwards. -/
theorem convert_zero_exit_empty_output (xmlName : String)
    (xmlContent : Option String) (tempDir outputDir : String) (validate : Bool)
    (res : ProcResult) (wrote : Option Nat) (validatorExists : Bool)
    (valRun : Nat → ValRun) (fs : FS) (mjlogP outP : String)
    (hmj : mjlogP = pathJoin tempDir (stemOf xmlName ++ ".mjlog"))
    (hout : outP = pathJoin outputDir (stemOf (baseNameOf mjlogP) ++ ".mjson"))
    (hbye : check_bye_event xmlContent = false)
    (hrc : res.returncode = 0)
    (hempty : FS.existsFile (writeDest (FS.insert fs mjlogP 1) outP wrote) outP = false
      ∨ FS.size (writeDest (FS.insert fs mjlogP 1) outP wrote) outP = 0) :
    convert_mjlog_to_mjai mjlogP outputDir (RunOutcome.completed res wrote)
        (FS.insert fs mjlogP 1)
      = ((false, "Conversion produced empty or no file", outP),
          FS.unlink (writeDest (FS.insert fs mjlogP 1) outP wrote) outP) ∧
    (process_single_file xmlName xmlContent tempDir outputDir validate
        GzipOutcome.ok (RunOutcome.completed res wrote) validatorExists valRun
        fs).1.status = "failed" ∧
    (process_single_file xmlName xmlContent tempDir outputDir validate
        GzipOutcome.ok (RunOutcome.completed res wrote) validatorExists valRun
        fs).1.error = some "Conversion produced empty or no file" ∧
    pyContains "Conversion produced empty or no file" "empty" = true ∧
    FS.existsFile
      (process_single_file xmlName xmlContent tempDir outputDir validate
        GzipOutcome.ok (RunOutcome.completed res wrote) validatorExists valRun
        fs).2 outP = false := by
  subst hmj
  subst hout
  have hrcb : (res.returncode != 0) = false := by simp [hrc]
  have hcond : (!FS.existsFile
        (writeDest
          (FS.insert fs (pathJoin tempDir (stemOf xmlName ++ ".mjlog")) 1)
          (pathJoin outputDir
            (stemOf (baseNameOf (pathJoin tempDir (stemOf xmlName ++ ".mjlog")))
              ++ ".mjson")) wrote)
        (pathJoin outputDir
          (stemOf (baseNameOf (pathJoin tempDir (stemOf xmlName ++ ".mjlog")))
            ++ ".mjson"))
      || FS.size
        (writeDest
          (FS.insert fs (pathJoin tempDir (stemOf xmlName ++ ".mjlog")) 1)
          (pathJoin outputDir
            (stemOf (baseNameOf (pathJoin tempDir (stemOf xmlName ++ ".mjlog")))
              ++ ".mjson")) wrote)
        (pathJoin outputDir
          (stemOf (baseNameOf (pathJoin tempDir (stemOf xmlName ++ ".mjlog")))
            ++ ".mjson")) == 0) = true := by
    rcases hempty with h | h <;> simp [h]
  have hconv : convert_mjlog_to_mjai
      (pathJoin tempDir (stemOf xmlName ++ ".mjlog")) outputDir
      (RunOutcome.completed res wrote)
      (FS.insert fs (pathJoin tempDir (stemOf xmlName ++ ".mjlog")) 1)
    = ((false, "Conversion produced empty or no file",
        pathJoin outputDir
          (stemOf (baseNameOf (pathJoin tempDir (stemOf xmlName ++ ".mjlog")))
            ++ ".mjson")),
        FS.unlink
          (writeDest
            (FS.insert fs (pathJoin tempDir (stemOf xmlName ++ ".mjlog")) 1)
            (pathJoin outputDir
              (stemOf (baseNameOf (pathJoin tempDir (stemOf xmlName ++ ".mjlog")))
                ++ ".mjson")) wrote)
          (pathJoin outputDir
            (stemOf (baseNameOf (pathJoin tempDir (stemOf xmlName ++ ".mjlog")))
              ++ ".mjson"))) := by
    unfold convert_mjlog_to_mjai
    simp only [hrcb, Bool.false_eq_true, if_false, hcond, if_true]
  refine ⟨hconv, ?_, ?_, by decide, ?_⟩ <;>
    · unfold process_single_file
      simp only [hbye, Bool.false_eq_true, if_false, gzip_xml_to_mjlog, hconv,
        existsFile_unlink_self, Bool.if_false_left]
      try simp [existsFile_unlink_of_absent _ _ _ (existsFile_unlink_self _ _)]

/-- C4 witness: exit 0 with a zero-byte destination written, on an empty
filesystem, for `a.xml`. -/
theorem convert_zero_exit_empty_output_witness :
    (process_single_file "a.xml" (some "<mjloggm></mjloggm>") "tmp" "out" false
        GzipOutcome.ok (RunOutcome.completed ⟨0, "", ""⟩ (some 0)) false
        (fun _ => ValRun.timedOut) []).1.status = "failed" ∧
    (process_single_file "a.xml" (some "<mjloggm></mjloggm>") "tmp" "out" false
        GzipOutcome.ok (RunOutcome.completed ⟨0, "", ""⟩ (some 0)) false
        (fun _ => ValRun.timedOut) []).1.error
      = some "Conversion produced empty or no file" ∧
    FS.existsFile
      (process_single_file "a.xml" (some "<mjloggm></mjloggm>") "tmp" "out" false
        GzipOutcome.ok (RunOutcome.completed ⟨0, "", ""⟩ (some 0)) false
        (fun _ => ValRun.timedOut) []).2 "out/a.mjson" = false := by
  have h := convert_zero_exit_empty_output "a.xml" (some "<mjloggm></mjloggm>")
    "tmp" "out" false ⟨0, "", ""⟩ (some 0) false (fun _ => ValRun.timedOut) []
    "tmp/a.mjlog" "out/a.mjson" (by decide) (by decide) (by decide) (by decide)
    (Or.inr (by decide))
  exact ⟨h.2.1, h.2.2.1, h.2.2.2.2⟩

/-- C6: when the validator executable is absent, `validate_mjai` returns a
pass with the skip note regardless of the invocation oracle (no process is
consulted), and a successfully converted file's JobResult therefore carries
validation outcome `passed`, whatever the converted file's content. -/
theorem validator_absent_validation_passes (xmlName : String)
    (xmlContent : Option String) (tempDir outputDir : String)
    (res : ProcResult) (wrote : Option Nat) (valRun : Nat → ValRun) (fs : FS)
    (mjlogP outP : String)
    (hmj : mjlogP = pathJoin tempDir (stemOf xmlName ++ ".mjlog"))
    (hout : outP = pathJoin outputDir (stemOf (baseNameOf mjlogP) ++ ".mjson"))
    (hbye : check_bye_event xmlContent = false)
    (hrc : res.returncode = 0)
    (hex : FS.existsFile (writeDest (FS.insert fs mjlogP 1) outP wrote) outP = true)
    (hsz : FS.size (writeDest (FS.insert fs mjlogP 1) outP wrote) outP ≠ 0) :
    (∀ (p : String) (vr : Nat → ValRun),
      validate_mjai p false vr = (true, "Validator not found, skipping validation")) ∧
    (process_single_file xmlName xmlContent tempDir outputDir true
        GzipOutcome.ok (RunOutcome.completed res wrote) false valRun
        fs).1.status = "converted" ∧
    (process_single_file xmlName xmlContent tempDir outputDir true
        GzipOutcome.ok (RunOutcome.completed res wrote) false valRun
        fs).1.validation = some "passed" := by
  subst hmj
  subst hout
  have hrcb : (res.returncode != 0) = false := by simp [hrc]
  have hszb : (FS.size
      (writeDest (FS.insert fs (pathJoin tempDir (stemOf xmlName ++ ".mjlog")) 1)
        (pathJoin outputDir
          (stemOf (baseNameOf (pathJoin tempDir (stemOf xmlName ++ ".mjlog")))
            ++ ".mjson")) wrote)
      (pathJoin outputDir
        (stemOf (baseNameOf (pathJoin tempDir (stemOf xmlName ++ ".mjlog")))
          ++ ".mjson")) == 0) = false := by simpa using hsz
  refine ⟨fun p vr => rfl, ?_, ?_⟩ <;>
    · unfold process_single_file
      simp only [hbye, Bool.false_eq_true, if_false, gzip_xml_to_mjlog]
      unfold convert_mjlog_to_mjai
      simp [hrcb, hex, hszb, validate_mjai]

/-- C6 witness: validator absent, conversion succeeded (5-byte output);
whatever the validator oracle would have answered, validation is `passed`. -/
theorem validator_absent_validation_passes_witness :
    (process_single_file "a.xml" (some "<mjloggm></mjloggm>") "tmp" "out" true
        GzipOutcome.ok (RunOutcome.completed ⟨0, "", ""⟩ (some 5)) false
        (fun _ => ValRun.completed ⟨1, "", "everything fails"⟩) []).1.status
      = "converted" ∧
    (process_single_file "a.xml" (some "<mjloggm></mjloggm>") "tmp" "out" true
        GzipOutcome.ok (RunOutcome.completed ⟨0, "", ""⟩ (some 5)) false
        (fun _ => ValRun.completed ⟨1, "", "everything fails"⟩) []).1.validation
      = some "passed" := by
  have h := validator_absent_validation_passes "a.xml" (some "<mjloggm></mjloggm>") "tmp"
    "out" ⟨0, "", ""⟩ (some 5)
    (fun _ => ValRun.completed ⟨1, "", "everything fails"⟩) []
    "tmp/a.mjlog" "out/a.mjson" (by decide) (by decide) (by decide) (by decide)
    (by decide) (by decide)
  exact ⟨h.2.1, h.2.2⟩

/-- C7: with the validator present, the invocation runs under the fixed
timeout 10 (the result depends only on the oracle's answer at timeout 10):
exit 0 passes; nonzero exit fails with the first stderr line containing
'fails' truncated to at most 100 characters, or "Unknown error" if no such
line exists; a timeout yields "Validation timeout"; an invocation exception
is caught and its message reported, never raised. -/
theorem validate_mjai_invocation_outcomes (mjsonPath : String)
    (valRun : Nat → ValRun) :
    (∀ res : ProcResult, valRun 10 = ValRun.completed res → res.returncode = 0 →
      validate_mjai mjsonPath true valRun = (true, "Validation passed")) ∧
    (∀ res : ProcResult, valRun 10 = ValRun.completed res → res.returncode ≠ 0 →
      (validate_mjai mjsonPath true valRun).1 = false ∧
      (validate_mjai mjsonPath true valRun).2.length ≤ 100 ∧
      ((∃ line, (pyLines res.stderr).find? (fun e => pyContains e "fails")
            = some line ∧
          (validate_mjai mjsonPath true valRun).2 = strTake line 100) ∨
        ((pyLines res.stderr).find? (fun e => pyContains e "fails") = none ∧
          (validate_mjai mjsonPath true valRun).2 = "Unknown error"))) ∧
    (valRun 10 = ValRun.timedOut →
      validate_mjai mjsonPath true valRun = (false, "Validation timeout")) ∧
    (∀ msg, valRun 10 = ValRun.raised msg →
      validate_mjai mjsonPath true valRun = (false, msg)) ∧
    (∀ valRun2 : Nat → ValRun, valRun2 10 = valRun 10 →
      validate_mjai mjsonPath true valRun2 = validate_mjai mjsonPath true valRun) := by
  refine ⟨?_, ?_, ?_, ?_, ?_⟩
  · intro res h hz
    simp [validate_mjai, h, hz]
  · intro res h hz
    have hzb : (res.returncode == 0) = false := by simpa using hz
    have hval : validate_mjai mjsonPath true valRun
        = (false, strTake (((pyLines res.stderr).find?
            (fun e => pyContains e "fails")).getD "Unknown error") 100) := by
      simp [validate_mjai, h, hzb]
    refine ⟨by rw [hval], by rw [hval]; exact strTake_length_le _ _, ?_⟩
    rcases hf : (pyLines res.stderr).find? (fun e => pyContains e "fails") with _ | line
    · exact Or.inr ⟨rfl, by rw [hval, hf]; decide⟩
    · exact Or.inl ⟨line, rfl, by rw [hval, hf]; rfl⟩
  · intro h
    simp [validate_mjai, h]
  · intro msg h
    simp [validate_mjai, h]
  · intro valRun2 h2
    unfold validate_mjai
    rw [h2]

/-- C7 witness: the validator present, exercised on a nonzero exit with a
'fails' line, on a timeout, and on a pass. -/
theorem validate_mjai_invocation_outcomes_witness :
    validate_mjai "f.mjson" true
        (fun _ => ValRun.completed ⟨1, "", "ok line\nthis fails here\nrest"⟩)
      = (false, "this fails here") ∧
    validate_mjai "f.mjson" true (fun _ => ValRun.timedOut)
      = (false, "Validation timeout") ∧
    validate_mjai "f.mjson" true (fun _ => ValRun.completed ⟨0, "", ""⟩)
      = (true, "Validation passed") := by
  refine ⟨?_, ?_, ?_⟩
  · have h := (validate_mjai_invocation_outcomes "f.mjson"
      (fun _ => ValRun.completed ⟨1, "", "ok line\nthis fails here\nrest"⟩)).2.1
      ⟨1, "", "ok line\nthis fails here\nrest"⟩ rfl (by decide)
    rcases h.2.2 with ⟨line, hline, hv⟩ | ⟨hnone, _⟩
    · have : line = "this fails here" := by
        have := hline
        rw [show ((pyLines "ok line\nthis fails here\nrest").find?
          (fun e => pyContains e "fails")) = some "this fails here" from by decide] at this
        exact (Option.some_inj.mp this).symm
      ext1
      · exact h.1
      · rw [hv, this]; decide
    · exact absurd hnone (by decide)
  · exact (validate_mjai_invocation_outcomes "f.mjson" (fun _ => ValRun.timedOut)).2.2.1 rfl
  · exact (validate_mjai_invocation_outcomes "f.mjson"
      (fun _ => ValRun.completed ⟨0, "", ""⟩)).1 ⟨0, "", ""⟩ rfl rfl

theorem process_status_terminal (xmlName : String) (xmlContent : Option String)
    (tempDir outputDir : String) (validate : Bool) (gz : GzipOutcome)
    (convRun : RunOutcome) (validatorExists : Bool) (valRun : Nat → ValRun)
    (fs : FS) :
    (process_single_file xmlName xmlContent tempDir outputDir validate gz
        convRun validatorExists valRun fs).1.status
      ∈ (["skipped", "converted", "failed", "error"] : List String) := by
  unfold process_single_file
  by_cases hb : check_bye_event xmlContent
  · simp [hb]
  · simp only [Bool.not_eq_true] at hb
    simp only [hb, Bool.false_eq_true, if_false]
    cases gz with
    | failBeforeCreate msg => simp [gzip_xml_to_mjlog]
    | failAfterCreate msg => simp [gzip_xml_to_mjlog]
    | ok =>
      simp only [gzip_xml_to_mjlog]
      rcases hc : convert_mjlog_to_mjai
          (pathJoin tempDir (stemOf xmlName ++ ".mjlog")) outputDir convRun
          (FS.insert fs (pathJoin tempDir (stemOf xmlName ++ ".mjlog")) 1)
        with ⟨⟨success, message, mjsonPath⟩, fs2⟩
      simp only [hc]
      cases success with
      | false => simp
      | true =>
        by_cases hv : (validate && FS.existsFile fs2 mjsonPath) = true
        · rcases hV : validate_mjai mjsonPath validatorExists valRun
            with ⟨valid, validationMsg⟩
          simp [hv, hV]
        · simp only [Bool.not_eq_true] at hv
          simp [hv]

/-- C3: `process_single_file` never raises: it always returns one JobResult
with a terminal status, and an exception that escapes a pipeline step (the
gzip step is the only one whose exceptions reach the pipeline boundary;
`convert_mjlog_to_mjai` and `validate_mjai` catch their own) is converted
into a result with status "error" and the exception's message. -/
theorem process_single_file_never_raises (xmlName : String)
    (xmlContent : Option String) (tempDir outputDir : String) (validate : Bool)
    (gz : GzipOutcome) (convRun : RunOutcome) (validatorExists : Bool)
    (valRun : Nat → ValRun) (fs : FS) (msg : String)
    (hbye : check_bye_event xmlContent = false)
    (hgz : gz = GzipOutcome.failBeforeCreate msg
      ∨ gz = GzipOutcome.failAfterCreate msg) :
    (process_single_file xmlName xmlContent tempDir outputDir validate gz
        convRun validatorExists valRun fs).1.status = "error" ∧
    (process_single_file xmlName xmlContent tempDir outputDir validate gz
        convRun validatorExists valRun fs).1.error = some msg ∧
    ∀ (gz2 : GzipOutcome) (convRun2 : RunOutcome) (valRun2 : Nat → ValRun),
      (process_single_file xmlName xmlContent tempDir outputDir validate gz2
          convRun2 validatorExists valRun2 fs).1.status
        ∈ (["skipped", "converted", "failed", "error"] : List String) := by
  refine ⟨?_, ?_, fun gz2 convRun2 valRun2 =>
    process_status_terminal xmlName xmlContent tempDir outputDir validate gz2
      convRun2 validatorExists valRun2 fs⟩ <;>
    · rcases hgz with h | h <;>
        simp [process_single_file, hbye, h, gzip_xml_to_mjlog]

/-- C3 witness: an unreadable source file (exception before the scratch
file exists) yields exactly one result with status "error" carrying the
exception message. -/
theorem process_single_file_never_raises_witness :
    (process_single_file "a.xml" (some "<x/>") "tmp" "out" true
        (GzipOutcome.failBeforeCreate "Permission denied")
        (RunOutcome.completed ⟨0, "", ""⟩ none) true (fun _ => ValRun.timedOut)
        []).1.status = "error" ∧
    (process_single_file "a.xml" (some "<x/>") "tmp" "out" true
        (GzipOutcome.failBeforeCreate "Permission denied")
        (RunOutcome.completed ⟨0, "", ""⟩ none) true (fun _ => ValRun.timedOut)
        []).1.error = some "Permission denied" := by
  have h := process_single_file_never_raises "a.xml" (some "<x/>") "tmp" "out"
    true (GzipOutcome.failBeforeCreate "Permission denied")
    (RunOutcome.completed ⟨0, "", ""⟩ none) true (fun _ => ValRun.timedOut) []
    "Permission denied" (by decide) (Or.inl rfl)
  exact ⟨h.1, h.2.1⟩

/-- C2 (refuting evaluation): an exception in the gzip step after the
scratch file was created (e.g. disk full during the copy) is caught and the
job ends with status "error", but the scratch artifact
`scratch/g1.mjlog` still exists when `process_single_file` returns — the
cleanup at the end of the `try` block is skipped on the exception path. -/
theorem scratch_artifact_survives_exception :
    (process_single_file "g1.xml" (some "<mjloggm></mjloggm>") "scratch" "out"
        false (GzipOutcome.failAfterCreate "No space left on device")
        (RunOutcome.completed ⟨0, "", ""⟩ none) false (fun _ => ValRun.timedOut)
        []).1.status = "error" ∧
    FS.existsFile
      (process_single_file "g1.xml" (some "<mjloggm></mjloggm>") "scratch" "out"
        false (GzipOutcome.failAfterCreate "No space left on device")
        (RunOutcome.completed ⟨0, "", ""⟩ none) false (fun _ => ValRun.timedOut)
        []).2 "scratch/g1.mjlog" = true := by
  decide

/-- C2 (cleanup on the non-exception paths): when the gzip step succeeds,
the scratch artifact is deleted before `process_single_file` returns, on
both the conversion-success and conversion-failure paths, whatever the
converter and validator oracles did. -/
theorem scratch_artifact_removed_without_exception (xmlName : String)
    (xmlContent : Option String) (tempDir outputDir : String) (validate : Bool)
    (convRun : RunOutcome) (validatorExists : Bool) (valRun : Nat → ValRun)
    (fs : FS) (mjlogP : String)
    (hmj : mjlogP = pathJoin tempDir (stemOf xmlName ++ ".mjlog"))
    (hbye : check_bye_event xmlContent = false) :
    FS.existsFile
      (process_single_file xmlName xmlContent tempDir outputDir validate
        GzipOutcome.ok convRun validatorExists valRun fs).2 mjlogP = false := by
  subst hmj
  unfold process_single_file
  simp only [hbye, Bool.false_eq_true, if_false, gzip_xml_to_mjlog]
  rcases hc : convert_mjlog_to_mjai
      (pathJoin tempDir (stemOf xmlName ++ ".mjlog")) outputDir convRun
      (FS.insert fs (pathJoin tempDir (stemOf xmlName ++ ".mjlog")) 1)
    with ⟨⟨success, message, mjsonPath⟩, fs2⟩
  simp only [hc]
  cases success with
  | false => simp [existsFile_unlink_self]
  | true =>
    by_cases hv : (validate && FS.existsFile fs2 mjsonPath) = true
    · rcases hV : validate_mjai mjsonPath validatorExists valRun
        with ⟨valid, validationMsg⟩
      simp [hv, hV, existsFile_unlink_self]
    · simp only [Bool.not_eq_true] at hv
      simp [hv, existsFile_unlink_self]

/-- C2 witness (for the cleanup theorem): a failed conversion still removes
`tmp/a.mjlog`. -/
theorem scratch_artifact_removed_without_exception_witness :
    FS.existsFile
      (process_single_file "a.xml" (some "<x/>") "tmp" "out" false
        GzipOutcome.ok (RunOutcome.completed ⟨1, "", "boom"⟩ (some 3)) false
        (fun _ => ValRun.timedOut) []).2 "tmp/a.mjlog" = false :=
  scratch_artifact_removed_without_exception "a.xml" (some "<x/>") "tmp" "out"
    false (RunOutcome.completed ⟨1, "", "boom"⟩ (some 3)) false
    (fun _ => ValRun.timedOut) [] "tmp/a.mjlog" (by decide) (by decide)
